import Mathlib

/-!
Verification of the use-cannon bridge layer.

This file gives a shallow embedding of the worker protocol of the repository and
caller-side handlers:

* the old-generation simulation host (`src/worker.js`, and the intermediate
  worker variant): body table, `addBody`/`addBodies`/`removeBody`/
  `removeBodies`/`setPosition`/`setRotation` and the `sync` republication;
* the caller-side registry rebuild (`Provider.tsx` `sync` case) and the
  in-place frame-path registry update (`frameHandler`);
* the `frameHandler` of the current-generation provider: observation routing,
  transform writes for plain and instanced handles, and redraw requests,
  modelled as an explicit effect trace;
* the `subscribe`/`unsubscribe` bookkeeping of `hooks.ts`;
* the `useSphere` argument validation of `hooks.ts`.

Machine floats only ferry data here (the handlers never do float arithmetic of
their own), so buffers are modelled over `ℚ`.
-/

/-- A triple of rationals: a position or Euler-rotation payload. -/
abbrev Triple : Type := ℚ × ℚ × ℚ

/-! ### Step accumulator (current-generation host) -/

/-- Modelled from the spec: the current-generation `step` handler (the
`@pmndrs/cannon-worker-api` package, repository code not under `src/`) forwards
`{timeSinceLastCalled, stepSize, maxSubSteps}` into the fixed-step accumulator of the physics
world, which repeatedly performs one fixed `stepSize` sub-step
while at least `stepSize` of accumulated time remains and fewer than
`maxSubSteps` sub-steps have been performed.  This function counts the
sub-steps performed by one `step` call starting from accumulated time `acc`
with `budget` sub-steps still allowed. -/
def stepAccumulatorSubSteps (stepSize acc : ℚ) (budget : ℕ) : ℕ :=
  match budget with
  | 0 => 0
  | b + 1 =>
    if stepSize ≤ acc then stepAccumulatorSubSteps stepSize (acc - stepSize) b + 1
    else 0

theorem stepAccumulatorSubSteps_le (stepSize : ℚ) :
    ∀ (budget : ℕ) (acc : ℚ), stepAccumulatorSubSteps stepSize acc budget ≤ budget := by
  intro budget
  induction budget with
  | zero => intro acc; simp [stepAccumulatorSubSteps]
  | succ b ih =>
    intro acc
    rw [stepAccumulatorSubSteps]
    split
    · exact Nat.succ_le_succ (ih _)
    · exact Nat.zero_le _

/-! ### Caller-side registry -/

/-- The caller-side identity→index registry (`bodies.current`). -/
def Registry : Type := String → Option ℕ

/-- Point update of the registry: the JS assignment `acc[id] = i`. -/
def rset (r : Registry) (k : String) (v : ℕ) : Registry :=
  fun x => if x = k then some v else r x

/-- The `Provider.tsx` `sync` case: rebuild the registry from the received ordered
body list, `bodies.reduce((acc, id) => ({ ...acc, [id]: bodies.indexOf(id) }), {})`. -/
def syncUpdate (bodies : List String) : Registry :=
  bodies.foldl (fun acc id => rset acc id (bodies.indexOf id)) (fun _ => none)

/-- The `frameHandler` registry update: `for (i) bodies.current[uuids[i]] = i`.
In-place: entries for identities absent from `uuids` are left untouched. -/
def frameUpdate (uuids : List String) (r : Registry) : Registry :=
  uuids.enum.foldl (fun acc p => rset acc p.2 p.1) r

theorem syncUpdate_foldl_apply (f : String → ℕ) (x : String) :
    ∀ (todo : List String) (acc : Registry),
      (todo.foldl (fun a id => rset a id (f id)) acc) x
        = if x ∈ todo then some (f x) else acc x := by
  intro todo
  induction todo with
  | nil => intro acc; simp
  | cons hd tl ih =>
    intro acc
    rw [List.foldl_cons, ih]
    by_cases hx : x ∈ tl
    · simp [hx]
    · by_cases hhd : x = hd
      · simp [hx, hhd, rset]
      · simp [hx, hhd, rset]

theorem syncUpdate_apply (bodies : List String) (x : String) :
    syncUpdate bodies x = if x ∈ bodies then some (bodies.indexOf x) else none :=
  syncUpdate_foldl_apply (bodies.indexOf ·) x bodies (fun _ => none)

/-- Claim C2 (amended): after a `sync` is applied, the rebuilt identity→index
map is a bijection onto `[0, currentBodyCount)` provided the ordered identity
list of the host is duplicate-free: `id` maps to `i` exactly when `id` sits at
position `i` of the received body list.  (The frame-path in-place update does
not enjoy this: it never deletes entries for removed identities, see the
counterexample.) -/
theorem claim_C2_sync_bijection (bodies : List String) (hnd : bodies.Nodup)
    (id : String) (i : ℕ) :
    syncUpdate bodies id = some i ↔ bodies.get? i = some id := by
  rw [syncUpdate_apply]
  constructor
  · intro h
    by_cases hm : id ∈ bodies
    · simp only [hm, if_true, Option.some.injEq] at h
      rw [← h]
      exact List.indexOf_get? hm
    · simp [hm] at h
  · intro h
    rcases List.get?_eq_some.mp h with ⟨hi, hget⟩
    have hm : id ∈ bodies := by rw [← hget]; exact bodies.get_mem i hi
    have : bodies.indexOf id = i := by
      rw [← hget]
      exact List.get_indexOf hnd ⟨i, hi⟩
    simp [hm, this]

theorem claim_C2_sync_bijection_witness :
    (["A", "B"] : List String).Nodup ∧
      (syncUpdate ["A", "B"] "A" = some 0 ↔ (["A", "B"] : List String).get? 0 = some "A") :=
  ⟨by decide, claim_C2_sync_bijection ["A", "B"] (by decide) "A" 0⟩

/-- Claim C2 counterexample: the claim also covers the frame-path registry
update, but that update is write-only.  Starting from the registry rebuilt
from body list `["A", "B"]`, applying a frame body list `["A"]` (body `B`
removed, `currentBodyCount = 1`) leaves the stale entry `B ↦ 1` in place, so
the map is not a bijection onto `[0, 1)` and the removed identity survives. -/
theorem claim_C2_counterexample :
    frameUpdate ["A"] (syncUpdate ["A", "B"]) "B" = some 1 ∧ ¬ (1 : ℕ) < 1 := by
  constructor
  · decide
  · decide

/-- Claim C1: `step({timeSinceLastCalled, stepSize, maxSubSteps})` advances the
world with a fixed-step accumulator whose catch-up sub-steps are capped at
`maxSubSteps`; in particular with `maxSubSteps = 10`, `stepSize = 1/60` and
`timeSinceLastCalled = 1`, exactly 10 sub-steps are performed — at most 10,
not 60. -/
theorem claim_C1_step_accumulator_cap :
    (∀ (stepSize acc : ℚ) (maxSubSteps : ℕ),
        stepAccumulatorSubSteps stepSize acc maxSubSteps ≤ maxSubSteps) ∧
      stepAccumulatorSubSteps (1 / 60) 1 10 = 10 ∧
      stepAccumulatorSubSteps (1 / 60) 1 10 ≠ 60 := by
  refine ⟨fun stepSize acc maxSubSteps => stepAccumulatorSubSteps_le stepSize maxSubSteps acc, ?_, ?_⟩
  · norm_num [stepAccumulatorSubSteps]
  · norm_num [stepAccumulatorSubSteps]

/-! ### Frame synchronizer (current-generation provider `frameHandler`) -/

/-- The data that `m.compose(v, q, scale)` inside `apply` receives: the translation
slice, the quaternion slice, and the scale.  The composed matrix is a fixed
function (in three.js, outside this repository) of exactly these ten numbers. -/
structure Pose where
  px : ℚ
  py : ℚ
  pz : ℚ
  qx : ℚ
  qy : ℚ
  qz : ℚ
  qw : ℚ
  sx : ℚ
  sy : ℚ
  sz : ℚ
deriving DecidableEq

/-- The module-level `s = new Vector3(1, 1, 1)` used when `apply` is called
without an object. -/
def unitScale : Triple := (1, 1, 1)

/-- The function `apply(index, positions, quaternions, …)`: `v.fromArray(positions, index*3)`
and `q.fromArray(quaternions, index*4)`, composed with the given scale. -/
def composePose (positions quaternions : ℕ → ℚ) (index : ℕ) (scale : Triple) : Pose :=
  { px := positions (index * 3), py := positions (index * 3 + 1), pz := positions (index * 3 + 2)
    qx := quaternions (index * 4), qy := quaternions (index * 4 + 1)
    qz := quaternions (index * 4 + 2), qw := quaternions (index * 4 + 3)
    sx := scale.1, sy := scale.2.1, sz := scale.2.2 }

/-- A visual handle held in `refs`: a plain `Object3D`, or an `InstancedMesh`
with `count` replicas.  `useBody` registers an `InstancedMesh` once per replica
(keys `uuid/0 … uuid/(count-1)`), every entry holding the same mesh, so the
mesh occurs once per replica in `Object.values(refs)`. -/
structure Handle where
  uuid : String
  isInstanced : Bool
  count : ℕ
  scale : Triple
deriving DecidableEq

/-- One observable action performed by `frameHandler`, in program order. -/
inductive Effect where
  | callback (id : ℕ) (type : String) (value : List ℚ)
  | setMatrixAt (uuid : String) (slot : ℕ) (pose : Pose)
  | setNeedsUpdate (uuid : String)
  | setMatrix (uuid : String) (pose : Pose)
  | invalidate
deriving DecidableEq

/-- The subscription table of `hooks.ts`: `subscriptions[id] = {[type]: cb}`.
`subs id ty = true` means a callback is registered under those keys. -/
def Subs : Type := ℕ → String → Bool

/-- A `frame` message payload. -/
structure Frame where
  active : Bool
  bodies : List String
  observations : List (ℕ × List ℚ × String)
  positions : ℕ → ℚ
  quaternions : ℕ → ℚ

/-- One step of `observations.forEach(([id, value, type]) => { const cb =
(subscriptions[id] || {})[type]; cb && cb(value) })`. -/
def obsEffect (subscriptions : Subs) (o : ℕ × List ℚ × String) : Option Effect :=
  if subscriptions o.1 o.2.2 then some (Effect.callback o.1 o.2.2 o.2.1) else none

/-- The derived replica identity `` `${ref.uuid}/${i}` ``. -/
def replicaKey (uuid : String) (i : ℕ) : String :=
  uuid ++ "/" ++ toString i

/-- The inner loop for an `InstancedMesh` ref: for each replica `i`, resolve
`bodies.current[uuid/i]`; when defined call `setMatrixAt(i, apply(index, …))`;
then (inside the loop, every iteration) assign
`instanceMatrix.needsUpdate = true`. -/
def visitInstanced (reg : Registry) (positions quaternions : ℕ → ℚ)
    (uuid : String) (count : ℕ) : List Effect :=
  (List.range count).flatMap fun i =>
    (match reg (replicaKey uuid i) with
      | some index => [Effect.setMatrixAt uuid i (composePose positions quaternions index unitScale)]
      | none => [])
    ++ [Effect.setNeedsUpdate uuid]

/-- The write loop over `Object.values(refs)`: instanced refs run
`visitInstanced`; plain refs run `apply(bodies.current[uuid], …, ref)`, which
writes the composed matrix onto the object only when the index resolved. -/
def writeEffects (reg : Registry) (positions quaternions : ℕ → ℚ)
    (refs : List Handle) : List Effect :=
  refs.flatMap fun ref =>
    if ref.isInstanced then visitInstanced reg positions quaternions ref.uuid ref.count
    else
      match reg ref.uuid with
      | some index => [Effect.setMatrix ref.uuid (composePose positions quaternions index ref.scale)]
      | none => []

/-- The `frameHandler` of the current-generation provider: update the registry from the
frame body list, route observations, and — only when `active` — write handle
transforms and, if `shouldInvalidate`, request a redraw. -/
def frameHandler (shouldInvalidate : Bool) (subscriptions : Subs)
    (refs : List Handle) (reg : Registry) (f : Frame) : Registry × List Effect :=
  let reg' := frameUpdate f.bodies reg
  let obsEffects := f.observations.filterMap (obsEffect subscriptions)
  let writes :=
    if f.active then
      writeEffects reg' f.positions f.quaternions refs
        ++ (if shouldInvalidate then [Effect.invalidate] else [])
    else []
  (reg', obsEffects ++ writes)

/-- The consumer-visible render state the effects act on: per-uuid object
matrices, per-replica instance matrix slots, instance-matrix dirty flags,
`matrixAutoUpdate` flags, and a count of redraw requests. -/
structure Scene where
  matrices : String → Option Pose
  slots : String → ℕ → Option Pose
  dirty : String → Bool
  autoUpdate : String → Bool
  redraws : ℕ

/-- Apply one effect to the scene.  Subscription callbacks do not touch the
scene. -/
def applyEffect (sc : Scene) : Effect → Scene
  | Effect.callback _ _ _ => sc
  | Effect.setMatrixAt uuid slot pose =>
    { sc with slots := fun u i => if u = uuid ∧ i = slot then some pose else sc.slots u i }
  | Effect.setNeedsUpdate uuid =>
    { sc with dirty := fun u => if u = uuid then true else sc.dirty u }
  | Effect.setMatrix uuid pose =>
    { sc with
      matrices := fun u => if u = uuid then some pose else sc.matrices u
      autoUpdate := fun u => if u = uuid then false else sc.autoUpdate u }
  | Effect.invalidate => { sc with redraws := sc.redraws + 1 }

/-- Apply a whole effect list in program order. -/
def applyEffects (sc : Scene) (effects : List Effect) : Scene :=
  effects.foldl applyEffect sc

/-- The `hooks.ts` `subscribe`: allocate the fresh id `incrementingId++` and record
`subscriptions[id] = { [type]: callback }`. -/
def subscribeOp (nextId : ℕ) (type : String) (subscriptions : Subs) : ℕ × Subs :=
  (nextId, fun i ty => if i = nextId then ty = type else subscriptions i ty)

/-- The unsubscriber returned by `subscribe`: `delete subscriptions[id]`. -/
def unsubscribeOp (id : ℕ) (subscriptions : Subs) : Subs :=
  fun i ty => if i = id then false else subscriptions i ty

/-- Claim C3: a `frame` with `active = false` modifies no handle transform and
requests no redraw, even when `shouldInvalidate` is set: applying the produced
effects leaves any scene unchanged (only subscription callbacks are run). -/
theorem claim_C3_inactive_frame_writes_nothing (shouldInvalidate : Bool)
    (subscriptions : Subs) (refs : List Handle) (reg : Registry) (sc : Scene)
    (f : Frame) (hactive : f.active = false) :
    applyEffects sc (frameHandler shouldInvalidate subscriptions refs reg f).2 = sc := by
  have hcb : ∀ o e, obsEffect subscriptions o = some e → ∃ id ty v, e = Effect.callback id ty v := by
    intro o e he
    unfold obsEffect at he
    split at he
    · exact ⟨o.1, o.2.2, o.2.1, (Option.some.injEq _ _).mp he.symm⟩
    · exact absurd he (by simp)
  unfold frameHandler
  rw [hactive]
  simp only [if_neg Bool.false_ne_true, List.append_nil]
  generalize hl : f.observations = l
  clear hl hactive
  induction l generalizing sc with
  | nil => rfl
  | cons hd tl ih =>
    rw [List.filterMap_cons]
    cases hob : obsEffect subscriptions hd with
    | none => exact ih sc
    | some e =>
      rcases hcb hd e hob with ⟨id, ty, v, rfl⟩
      rw [applyEffects, List.foldl_cons]
      exact ih sc

theorem obsEffect_callback (subscriptions : Subs) (o : ℕ × List ℚ × String) (e : Effect)
    (h : obsEffect subscriptions o = some e) : ∃ id ty v, e = Effect.callback id ty v := by
  unfold obsEffect at h
  split at h
  · exact ⟨o.1, o.2.2, o.2.1, (Option.some.inj h).symm⟩
  · exact absurd h (by simp)

theorem callback_not_in_visitInstanced (reg : Registry) (p q : ℕ → ℚ) (u : String)
    (n : ℕ) (id : ℕ) (ty : String) (v : List ℚ) :
    Effect.callback id ty v ∉ visitInstanced reg p q u n := by
  intro h
  rw [visitInstanced, List.mem_flatMap] at h
  rcases h with ⟨i, _, hmem⟩
  rcases List.mem_append.mp hmem with h' | h'
  · split at h' <;> simp at h'
  · simp at h'

theorem callback_not_in_writeEffects (reg : Registry) (p q : ℕ → ℚ) (refs : List Handle)
    (id : ℕ) (ty : String) (v : List ℚ) :
    Effect.callback id ty v ∉ writeEffects reg p q refs := by
  intro h
  rw [writeEffects, List.mem_flatMap] at h
  rcases h with ⟨ref, _, hmem⟩
  cases hri : ref.isInstanced
  · rw [hri] at hmem
    simp only [Bool.false_eq_true, if_false] at hmem
    split at hmem <;> simp at hmem
  · rw [hri] at hmem
    simp only [if_true] at hmem
    exact callback_not_in_visitInstanced _ _ _ _ _ _ _ _ hmem

/-- Claim C7: after `subscribe` immediately followed by `unsubscribe` (before
any `frame`), the orphaned subscription id is never routed into any observation
callback by `frameHandler`, whatever observations later frames carry. -/
theorem claim_C7_orphan_subscription_never_routed (nextId : ℕ) (type : String)
    (subscriptions : Subs) (shouldInvalidate : Bool) (refs : List Handle)
    (reg : Registry) (f : Frame) (ty : String) (v : List ℚ) :
    Effect.callback (subscribeOp nextId type subscriptions).1 ty v ∉
      (frameHandler shouldInvalidate
        (unsubscribeOp (subscribeOp nextId type subscriptions).1
          (subscribeOp nextId type subscriptions).2)
        refs reg f).2 := by
  intro h
  unfold frameHandler at h
  simp only at h
  rcases List.mem_append.mp h with h' | h'
  · rcases List.mem_filterMap.mp h' with ⟨o, _, hoe⟩
    unfold obsEffect at hoe
    split at hoe
    case isTrue hcond =>
      have heq := Option.some.inj hoe
      have h1 : o.1 = nextId := ((Effect.callback.injEq _ _ _ _ _ _).mp heq).1
      simp only [subscribeOp] at h1
      rw [h1] at hcond
      simp [unsubscribeOp, subscribeOp] at hcond
    case isFalse => exact absurd hoe (by simp)
  · cases hact : f.active
    · rw [hact] at h'
      simp at h'
    · rw [hact] at h'
      simp only [if_true] at h'
      rcases List.mem_append.mp h' with h'' | h''
      · exact callback_not_in_writeEffects _ _ _ _ _ _ _ h''
      · split at h'' <;> simp at h''

/-- Claim C10: every observation `[id, value, type]` in a frame whose id has a
registered subscription of that type invokes the callback with the value,
whether or not the frame is `active`. -/
theorem claim_C10_observations_routed_regardless_of_active (shouldInvalidate : Bool)
    (subscriptions : Subs) (refs : List Handle) (reg : Registry) (f : Frame)
    (id : ℕ) (v : List ℚ) (ty : String)
    (hmem : (id, v, ty) ∈ f.observations) (hsub : subscriptions id ty = true) :
    Effect.callback id ty v ∈ (frameHandler shouldInvalidate subscriptions refs reg f).2 := by
  unfold frameHandler
  simp only
  apply List.mem_append_left
  apply List.mem_filterMap.mpr
  exact ⟨(id, v, ty), hmem, by simp [obsEffect, hsub]⟩

/-- A scene with nothing written yet. -/
def sceneNil : Scene :=
  { matrices := fun _ => none, slots := fun _ _ => none, dirty := fun _ => false
    autoUpdate := fun _ => true, redraws := 0 }

/-- A subscription table with a callback registered under every id and type. -/
def allSubs : Subs := fun _ _ => true

/-- A concrete inactive frame carrying one observation. -/
def inactiveFrame : Frame :=
  { active := false, bodies := ["A"], observations := [(5, [], "velocity")]
    positions := fun _ => 0, quaternions := fun _ => 0 }

theorem claim_C3_inactive_frame_writes_nothing_witness :
    inactiveFrame.active = false ∧
      applyEffects sceneNil
        (frameHandler true allSubs [] (fun _ => none) inactiveFrame).2 = sceneNil :=
  ⟨rfl, claim_C3_inactive_frame_writes_nothing true allSubs [] (fun _ => none) sceneNil
    inactiveFrame rfl⟩

theorem claim_C10_observations_routed_regardless_of_active_witness :
    (5, ([] : List ℚ), "velocity") ∈ inactiveFrame.observations ∧
      allSubs 5 "velocity" = true ∧
      Effect.callback 5 "velocity" [] ∈
        (frameHandler true allSubs [] (fun _ => none) inactiveFrame).2 :=
  ⟨List.mem_singleton.mpr rfl, rfl,
    claim_C10_observations_routed_regardless_of_active true allSubs [] (fun _ => none)
      inactiveFrame 5 [] "velocity" (List.mem_singleton.mpr rfl) rfl⟩

/-! ### Counting the instanced-mesh writes (claim C4) -/

/-- Whether an effect is the dirty-flag assignment of the given mesh. -/
def isNeedsUpdateFor (uuid : String) : Effect → Bool
  | Effect.setNeedsUpdate u => u = uuid
  | _ => false

/-- The replica slots written for the given mesh, in program order. -/
def slotWritesFor (uuid : String) (effects : List Effect) : List ℕ :=
  effects.filterMap fun e =>
    match e with
    | Effect.setMatrixAt u i _ => if u = uuid then some i else none
    | _ => none

theorem visitInstanced_succ (reg : Registry) (p q : ℕ → ℚ) (u : String) (m : ℕ) :
    visitInstanced reg p q u (m + 1)
      = visitInstanced reg p q u m
        ++ ((match reg (replicaKey u m) with
              | some index =>
                [Effect.setMatrixAt u m (composePose p q index unitScale)]
              | none => [])
            ++ [Effect.setNeedsUpdate u]) := by
  rw [visitInstanced, visitInstanced, List.range_succ, List.flatMap_append]
  simp

theorem visitInstanced_counts (reg : Registry) (p q : ℕ → ℚ) (u : String) (n : ℕ)
    (hres : ∀ i < n, (reg (replicaKey u i)).isSome) :
    (visitInstanced reg p q u n).countP (isNeedsUpdateFor u) = n ∧
      slotWritesFor u (visitInstanced reg p q u n) = List.range n := by
  induction n with
  | zero => constructor <;> simp [visitInstanced, slotWritesFor]
  | succ m ih =>
    obtain ⟨ih1, ih2⟩ := ih (fun i hi => hres i (Nat.lt_succ_of_lt hi))
    obtain ⟨index, hidx⟩ := Option.isSome_iff_exists.mp (hres m (Nat.lt_succ_self m))
    rw [visitInstanced_succ, hidx]
    constructor
    · rw [List.countP_append, ih1]
      simp [isNeedsUpdateFor]
    · rw [slotWritesFor, List.filterMap_append, ← slotWritesFor, ih2, List.range_succ]
      simp [slotWritesFor]

theorem frameHandler_effects (shouldInvalidate : Bool) (subscriptions : Subs)
    (refs : List Handle) (reg : Registry) (f : Frame) :
    (frameHandler shouldInvalidate subscriptions refs reg f).2
      = f.observations.filterMap (obsEffect subscriptions)
        ++ (if f.active then
              writeEffects (frameUpdate f.bodies reg) f.positions f.quaternions refs
                ++ (if shouldInvalidate then [Effect.invalidate] else [])
            else []) := rfl

theorem obsPart_counts (subscriptions : Subs) (l : List (ℕ × List ℚ × String)) (u : String) :
    (l.filterMap (obsEffect subscriptions)).countP (isNeedsUpdateFor u) = 0 ∧
      slotWritesFor u (l.filterMap (obsEffect subscriptions)) = [] := by
  have hall : ∀ e ∈ l.filterMap (obsEffect subscriptions),
      ∃ id ty v, e = Effect.callback id ty v := by
    intro e he
    rcases List.mem_filterMap.mp he with ⟨o, _, hoe⟩
    exact obsEffect_callback _ _ _ hoe
  constructor
  · rw [List.countP_eq_zero]
    intro e he
    rcases hall e he with ⟨id, ty, v, rfl⟩
    simp [isNeedsUpdateFor]
  · rw [slotWritesFor, List.filterMap_eq_nil_iff]
    intro e he
    rcases hall e he with ⟨id, ty, v, rfl⟩
    rfl

/-- Claim C4 (amended): for an instanced handle with `count` replicas occurring
`k` times in `refs` (the hooks register it once per replica, so `k = count` in
the running system), a frame with `active = true` whose registry resolves every
replica produces `k * count` dirty-flag assignments — one per replica iteration
of each visit, inside the loop, not exactly one after it — and `k * count`
slot-write operations covering the `count` distinct replica slots once per
visit. -/
theorem claim_C4_replicated_writes_and_dirty_flag (shouldInvalidate : Bool)
    (subscriptions : Subs) (k count : ℕ) (u : String) (sc : Triple)
    (reg : Registry) (f : Frame) (hactive : f.active = true)
    (hres : ∀ i < count, ((frameUpdate f.bodies reg) (replicaKey u i)).isSome) :
    ((frameHandler shouldInvalidate subscriptions
          (List.replicate k ⟨u, true, count, sc⟩) reg f).2).countP (isNeedsUpdateFor u)
        = k * count ∧
      slotWritesFor u
          (frameHandler shouldInvalidate subscriptions
            (List.replicate k ⟨u, true, count, sc⟩) reg f).2
        = (List.replicate k (List.range count)).flatten := by
  have hwrite : ∀ m : ℕ,
      (writeEffects (frameUpdate f.bodies reg) f.positions f.quaternions
          (List.replicate m ⟨u, true, count, sc⟩)).countP (isNeedsUpdateFor u) = m * count ∧
        slotWritesFor u
            (writeEffects (frameUpdate f.bodies reg) f.positions f.quaternions
              (List.replicate m ⟨u, true, count, sc⟩))
          = (List.replicate m (List.range count)).flatten := by
    intro m
    induction m with
    | zero => constructor <;> simp [writeEffects, slotWritesFor]
    | succ j ih =>
      have hred : writeEffects (frameUpdate f.bodies reg) f.positions f.quaternions
            (List.replicate (j + 1) (⟨u, true, count, sc⟩ : Handle))
          = visitInstanced (frameUpdate f.bodies reg) f.positions f.quaternions u count
            ++ writeEffects (frameUpdate f.bodies reg) f.positions f.quaternions
                (List.replicate j (⟨u, true, count, sc⟩ : Handle)) := rfl
      obtain ⟨hv1, hv2⟩ :=
        visitInstanced_counts (frameUpdate f.bodies reg) f.positions f.quaternions u count hres
      obtain ⟨ih1, ih2⟩ := ih
      constructor
      · rw [hred, List.countP_append, hv1, ih1, Nat.succ_mul, Nat.add_comm]
      · rw [hred, slotWritesFor, List.filterMap_append, ← slotWritesFor, ← slotWritesFor,
          hv2, ih2, List.replicate_succ, List.flatten_cons]
  obtain ⟨ho1, ho2⟩ := obsPart_counts subscriptions f.observations u
  obtain ⟨hw1, hw2⟩ := hwrite k
  have hinv1 : (if shouldInvalidate then [Effect.invalidate] else []).countP
      (isNeedsUpdateFor u) = 0 := by
    cases shouldInvalidate <;> rfl
  have hinv2 : slotWritesFor u (if shouldInvalidate then [Effect.invalidate] else []) = [] := by
    cases shouldInvalidate <;> rfl
  rw [frameHandler_effects, hactive, if_pos (rfl : (true : Bool) = true)]
  constructor
  · rw [List.countP_append, ho1, List.countP_append, hw1, hinv1]
    omega
  · rw [slotWritesFor, List.filterMap_append, List.filterMap_append,
      ← slotWritesFor, ← slotWritesFor, ← slotWritesFor, ho2, hw2, hinv2]
    simp

/-- The instanced handle "M" with two replicas, as useBody registers it. -/
def meshM : Handle := { uuid := "M", isInstanced := true, count := 2, scale := unitScale }

/-- A registry resolving both replica identities of "M". -/
def regM : Registry :=
  fun s => if s = "M/0" then some 0 else if s = "M/1" then some 1 else none

/-- An active frame with no observations and zeroed buffers. -/
def activeFrameM : Frame :=
  { active := true, bodies := [], observations := []
    positions := fun _ => 0, quaternions := fun _ => 0 }

/-- Claim C4 counterexample: for `R = 2` replicas, all indices resolving, the
refs table holds the mesh once per replica, so one frame assigns the shared
dirty flag four times (once per replica iteration of each of the two visits) —
not exactly once after the per-replica loop. -/
theorem claim_C4_counterexample :
    ((frameHandler true allSubs [meshM, meshM] regM activeFrameM).2).countP
        (isNeedsUpdateFor "M") = 4 ∧ (4 : ℕ) ≠ 1 := by
  constructor
  · decide
  · decide

theorem claim_C4_replicated_writes_and_dirty_flag_witness :
    activeFrameM.active = true ∧
      (∀ i < 2, ((frameUpdate activeFrameM.bodies regM) (replicaKey "M" i)).isSome) ∧
      (((frameHandler true allSubs (List.replicate 2 ⟨"M", true, 2, unitScale⟩)
            regM activeFrameM).2).countP (isNeedsUpdateFor "M") = 2 * 2 ∧
        slotWritesFor "M"
            (frameHandler true allSubs (List.replicate 2 ⟨"M", true, 2, unitScale⟩)
              regM activeFrameM).2
          = (List.replicate 2 (List.range 2)).flatten) :=
  ⟨rfl, by decide,
    claim_C4_replicated_writes_and_dirty_flag true allSubs 2 2 "M" unitScale regM
      activeFrameM rfl (by decide)⟩

/-! ### Simulation host (the `task` switch of the worker) -/

/-- A rigid body as the host stores it: caller identity, attached shape tags,
and pose.  Shape payloads and quaternion conversion live in the external
physics library; the data owned by the host is the identity, which shapes were
attached, and the pose it assigned. -/
structure WBody where
  uuid : String
  shapeTags : List String
  position : Triple
  eulerRotation : Triple
deriving DecidableEq

/-- An outbound message posted by the host (`self.postMessage`). -/
inductive OutMsg where
  | sync (bodies : List String)
deriving DecidableEq

/-- The host state: an object heap for bodies, the ordered world body
list (as heap ids), the `bodies` identity table as last rebuilt by
`syncBodies`, and the trace of posted messages. -/
structure Host where
  store : ℕ → Option WBody
  nextId : ℕ
  worldBodies : List ℕ
  table : String → Option ℕ
  msgs : List OutMsg

/-- The identity list `world.bodies.map(body => body.uuid)`. -/
def worldUuids (h : Host) : List String :=
  h.worldBodies.map fun oid => ((h.store oid).map WBody.uuid).getD ""

/-- The table rebuild `bodies = world.bodies.reduce((acc, body) => ({ ...acc, [body.uuid]: body }), {})`. -/
def rebuildTable (h : Host) : String → Option ℕ :=
  h.worldBodies.foldl
    (fun acc oid =>
      match h.store oid with
      | some b => fun u => if u = b.uuid then some oid else acc u
      | none => acc)
    (fun _ => none)

/-- The `syncBodies()` helper: post a sync message `{op, bodies: world.bodies.map(b => b.uuid)}`
and rebuild the identity table. -/
def syncBodies (h : Host) : Host :=
  { h with msgs := h.msgs ++ [OutMsg.sync (worldUuids h)], table := rebuildTable h }

/-- The `switch (type)` of `addBody`: each recognized tag attaches exactly one
shape (constructed by the physics library from the args); the default branch
attaches none. -/
def shapesFor (type : String) : List String :=
  if type = "Box" then ["Box"]
  else if type = "ConvexPolyhedron" then ["ConvexPolyhedron"]
  else if type = "Cylinder" then ["Cylinder"]
  else if type = "Heightfield" then ["Heightfield"]
  else if type = "Particle" then ["Particle"]
  else if type = "Plane" then ["Plane"]
  else if type = "Sphere" then ["Sphere"]
  else if type = "Trimesh" then ["Trimesh"]
  else []

/-- The recognized shape vocabulary of the `addBody` switch. -/
def recognizedShapeTypes : List String :=
  ["Box", "ConvexPolyhedron", "Cylinder", "Heightfield", "Particle", "Plane", "Sphere",
   "Trimesh"]

/-- The creation props `addBody` destructures:
`{ position = [0, 0, 0], rotation = [0, 0, 0], ... } = props`. -/
structure BodyProps where
  position : Option Triple
  rotation : Option Triple
deriving DecidableEq

/-- The `addBody` case: construct the body, attach shapes per the type switch, set the
pose, insert into the world, and republish when `sync` is set. -/
def addBody (type uuid : String) (props : BodyProps) (sync : Bool) (h : Host) : Host :=
  let body : WBody :=
    { uuid := uuid, shapeTags := shapesFor type
      position := props.position.getD (0, 0, 0)
      eulerRotation := props.rotation.getD (0, 0, 0) }
  let h' : Host :=
    { h with
      store := fun i => if i = h.nextId then some body else h.store i
      nextId := h.nextId + 1
      worldBodies := h.worldBodies ++ [h.nextId] }
  if sync then syncBodies h' else h'

/-- The `addBodies` case: run the `addBody` case for every batch member with
`sync = false`, then republish once.  (The worker pairs `uuid[i]` with
`props[i]`.) -/
def addBodies (type : String) (pairs : List (String × BodyProps)) (h : Host) : Host :=
  syncBodies (pairs.foldl (fun acc pr => addBody type pr.1 pr.2 false acc) h)

/-- The TypeError a JS member access on `undefined` raises. -/
def typeError : String := "TypeError: cannot read properties of undefined"

/-- The `removeBody` case: `world.removeBody(bodies[uuid])`.  An identity absent from
the table yields `undefined`, and the removal in the engine immediately
dereferences it — a throw.  Otherwise the body is spliced out of the world
list and, when `sync` is set, the registry is republished. -/
def removeBody (uuid : String) (sync : Bool) (h : Host) : Except String Host :=
  match h.table uuid with
  | none => Except.error typeError
  | some oid =>
    let h' : Host := { h with worldBodies := h.worldBodies.erase oid }
    Except.ok (if sync then syncBodies h' else h')

/-- The `removeBodies` case: forward each member to the `removeBody` case — with the
`sync` parameter left at its default `true` — then republish once more. -/
def removeBodies (uuids : List String) (h : Host) : Except String Host :=
  match uuids with
  | [] => Except.ok (syncBodies h)
  | u :: rest =>
    match removeBody u true h with
    | Except.error e => Except.error e
    | Except.ok h' => removeBodies rest h'

/-- The `setPosition` case: `bodies[uuid].position.set(props[0], props[1], props[2])`;
an unknown identity dereferences `undefined` and throws. -/
def setPosition (uuid : String) (p : Triple) (h : Host) : Except String Host :=
  match h.table uuid with
  | none => Except.error typeError
  | some oid =>
    Except.ok
      { h with
        store := fun i =>
          if i = oid then (h.store oid).map (fun b => { b with position := p })
          else h.store i }

/-- The `setRotation` case: `bodies[uuid].quaternion.setFromEuler(props[0], props[1],
props[2], XYZ)`; an unknown identity dereferences `undefined` and throws. -/
def setRotation (uuid : String) (r : Triple) (h : Host) : Except String Host :=
  match h.table uuid with
  | none => Except.error typeError
  | some oid =>
    Except.ok
      { h with
        store := fun i =>
          if i = oid then (h.store oid).map (fun b => { b with eulerRotation := r })
          else h.store i }

/-- The membership and mutation operations of the `task` switch that
the claims exercise. -/
inductive Op where
  | addBody (type uuid : String) (props : BodyProps)
  | addBodies (type : String) (pairs : List (String × BodyProps))
  | removeBody (uuid : String)
  | removeBodies (uuids : List String)
  | setPosition (uuid : String) (props : Triple)
  | setRotation (uuid : String) (props : Triple)

/-- The `task` dispatcher of the worker, for an op arriving through `onmessage`
(hence with `sync` at its default `true`). -/
def task (op : Op) (h : Host) : Except String Host :=
  match op with
  | Op.addBody type uuid props => Except.ok (addBody type uuid props true h)
  | Op.addBodies type pairs => Except.ok (addBodies type pairs h)
  | Op.removeBody uuid => removeBody uuid true h
  | Op.removeBodies uuids => removeBodies uuids h
  | Op.setPosition uuid props => setPosition uuid props h
  | Op.setRotation uuid props => setRotation uuid props h

theorem addBodies_foldl_msgs (type : String) (pairs : List (String × BodyProps)) :
    ∀ h : Host,
      (pairs.foldl (fun acc pr => addBody type pr.1 pr.2 false acc) h).msgs = h.msgs := by
  induction pairs with
  | nil => intro h; rfl
  | cons hd tl ih =>
    intro h
    rw [List.foldl_cons, ih]
    rfl

/-- The initial host: empty heap, empty world, empty table, no messages. -/
def host0 : Host :=
  { store := fun _ => none, nextId := 0, worldBodies := [], table := fun _ => none
    msgs := [] }

/-- A host holding bodies "A" and "B", registered through one batched add. -/
def hostAB : Host := addBodies "Box" [("A", ⟨none, none⟩), ("B", ⟨none, none⟩)] host0

/-- Claim C5 (amended): `addBodies` publishes exactly one `sync`, after the
whole batch — for a batch of three on a fresh host it lists the three
identities in insertion order — but `removeBodies` forwards each member to the
`removeBody` case with the `sync` parameter left at its default `true`, so a
batch of N removals publishes N + 1 syncs (one per member plus the final
one), not a single one. -/
theorem claim_C5_batch_sync_publication :
    (∀ (h : Host) (type : String) (pairs : List (String × BodyProps)),
        ∃ l, (addBodies type pairs h).msgs = h.msgs ++ [OutMsg.sync l]) ∧
      (addBodies "Box" [("A", ⟨none, none⟩), ("B", ⟨none, none⟩), ("C", ⟨none, none⟩)]
          host0).msgs
        = [OutMsg.sync ["A", "B", "C"]] ∧
      (removeBodies ["A", "B"] hostAB).map Host.msgs
        = Except.ok
            [OutMsg.sync ["A", "B"], OutMsg.sync ["B"], OutMsg.sync [], OutMsg.sync []] := by
  refine ⟨fun h type pairs => ?_, by rfl, by rfl⟩
  refine ⟨worldUuids (pairs.foldl (fun acc pr => addBody type pr.1 pr.2 false acc) h), ?_⟩
  have h1 : (addBodies type pairs h).msgs
      = (pairs.foldl (fun acc pr => addBody type pr.1 pr.2 false acc) h).msgs
        ++ [OutMsg.sync
              (worldUuids (pairs.foldl (fun acc pr => addBody type pr.1 pr.2 false acc) h))] :=
    rfl
  rw [h1, addBodies_foldl_msgs]

/-- Claim C5 counterexample: removing the batch `["A", "B"]` from a host that
holds exactly those two bodies (registered by one batched add, hence one prior
sync) leaves four sync messages in the trace — three published by the removal
batch — where the claim predicts a single new one (two total). -/
theorem claim_C5_counterexample :
    (removeBodies ["A", "B"] hostAB).map (fun h => h.msgs.length) = Except.ok 4 ∧
      (4 : ℕ) ≠ 2 := by
  constructor
  · rfl
  · decide

/-- Claim C6 (amended): a mutation or removal op whose identity is absent from
the `bodies` table of the host is not a silent no-op: the handler dereferences the
missing table entry and throws a TypeError.  (The world is untouched only
because the handler aborts at the throw.) -/
theorem claim_C6_unknown_identity_throws (h : Host) (uuid : String) (p r : Triple)
    (habs : h.table uuid = none) :
    task (Op.setPosition uuid p) h = Except.error typeError ∧
      task (Op.setRotation uuid r) h = Except.error typeError ∧
      task (Op.removeBody uuid) h = Except.error typeError := by
  refine ⟨?_, ?_, ?_⟩ <;> simp [task, setPosition, setRotation, removeBody, habs]

theorem claim_C6_unknown_identity_throws_witness :
    host0.table "ghost" = none ∧
      (task (Op.setPosition "ghost" (0, 0, 0)) host0 = Except.error typeError ∧
        task (Op.setRotation "ghost" (0, 0, 0)) host0 = Except.error typeError ∧
        task (Op.removeBody "ghost") host0 = Except.error typeError) :=
  ⟨rfl, claim_C6_unknown_identity_throws host0 "ghost" (0, 0, 0) (0, 0, 0) rfl⟩

/-- Claim C6 counterexample: `setPosition` for the unknown identity "ghost" on
the initial host raises a TypeError — the silent no-op of the claim (no error)
fails at this input. -/
theorem claim_C6_counterexample :
    task (Op.setPosition "ghost" (1, 2, 3)) host0 = Except.error typeError := rfl

theorem shapesFor_eq_nil (type : String) (hunk : type ∉ recognizedShapeTypes) :
    shapesFor type = [] := by
  simp only [recognizedShapeTypes, List.mem_cons, List.mem_singleton, not_or,
    List.not_mem_nil] at hunk
  obtain ⟨h1, h2, h3, h4, h5, h6, h7, h8, -⟩ := hunk
  rw [shapesFor, if_neg h1, if_neg h2, if_neg h3, if_neg h4, if_neg h5, if_neg h6,
    if_neg h7, if_neg h8]

/-- Claim C8: `addBody` with an unrecognized shape tag still creates the body —
zero shapes attached, pose set from the props — inserts it at the end of the
world and completes normally (so a containing `addBodies` batch is not
failed). -/
theorem claim_C8_unknown_shape_tag_inert_body (h : Host) (type uuid : String)
    (props : BodyProps) (hunk : type ∉ recognizedShapeTypes) :
    ∃ h', task (Op.addBody type uuid props) h = Except.ok h' ∧
      h'.store h.nextId = some
        { uuid := uuid, shapeTags := []
          position := props.position.getD (0, 0, 0)
          eulerRotation := props.rotation.getD (0, 0, 0) } ∧
      h'.worldBodies = h.worldBodies ++ [h.nextId] := by
  refine ⟨addBody type uuid props true h, rfl, ?_, rfl⟩
  have hstore : (addBody type uuid props true h).store h.nextId
      = some
          { uuid := uuid, shapeTags := shapesFor type
            position := props.position.getD (0, 0, 0)
            eulerRotation := props.rotation.getD (0, 0, 0) } := by
    show (if h.nextId = h.nextId then _ else _) = _
    rw [if_pos rfl]
  rw [hstore, shapesFor_eq_nil type hunk]

theorem claim_C8_unknown_shape_tag_inert_body_witness :
    "Banana" ∉ recognizedShapeTypes ∧
      (∃ h', task (Op.addBody "Banana" "u1" ⟨some (1, 2, 3), none⟩) host0 = Except.ok h' ∧
        h'.store host0.nextId = some
          { uuid := "u1", shapeTags := []
            position := ((⟨some (1, 2, 3), none⟩ : BodyProps)).position.getD (0, 0, 0)
            eulerRotation := ((⟨some (1, 2, 3), none⟩ : BodyProps)).rotation.getD (0, 0, 0) } ∧
        h'.worldBodies = host0.worldBodies ++ [host0.nextId]) :=
  ⟨by decide,
    claim_C8_unknown_shape_tag_inert_body host0 "Banana" "u1" ⟨some (1, 2, 3), none⟩
      (by decide)⟩

/-! ### Typed constructor argument validation (`hooks.ts`) -/

/-- A JS value passed as the `args` of a constructor: an array of numbers (entries
possibly undefined), or a non-array value. -/
inductive JSVal where
  | arr (xs : List (Option ℚ))
  | num (x : ℚ)
  | str (s : String)
  | boolean (b : Bool)
deriving DecidableEq

/-- The check `Array.isArray`. -/
def isJSArray : JSVal → Bool
  | JSVal.arr _ => true
  | _ => false

/-- The `useSphere` args function:
`(args = [1]) => [args[0]]`, guarded by `Array.isArray(args)`: a non-array
throws the Error "useSphere args must be an array".  An absent `args` takes the default
`[1]`; a non-array throws; an array is narrowed to its first element. -/
def sphereArgsFn (args : Option JSVal) : Except String JSVal :=
  match args.getD (JSVal.arr [some 1]) with
  | JSVal.arr xs => Except.ok (JSVal.arr [xs.getD 0 none])
  | _ => Except.error "useSphere args must be an array"

/-- A message the hooks dispatch to the worker. -/
inductive HookMsg where
  | addBodies (type : String) (uuids : List String) (args : List JSVal)
deriving DecidableEq

/-- Mapping a function that may throw over a list (`props.map(...)`): the first throw aborts the whole
construction. -/
def mapExcept (f : Option JSVal → Except String JSVal) :
    List (Option JSVal) → Except String (List JSVal)
  | [] => Except.ok []
  | a :: as =>
    match f a with
    | Except.error e => Except.error e
    | Except.ok b =>
      match mapExcept f as with
      | Except.error e => Except.error e
      | Except.ok bs => Except.ok (b :: bs)

/-- The `useBody` registration effect: every per-body props record is built —
running `argsFn(props.args)` — strictly before the single `addBodies` envelope
is dispatched, so a throw inside `argsFn` means no message is ever sent. -/
def useBodyMessages (argsFn : Option JSVal → Except String JSVal)
    (bodyArgs : List (Option JSVal)) (type : String) (uuids : List String) :
    Except String (List HookMsg) :=
  match mapExcept argsFn bodyArgs with
  | Except.error e => Except.error e
  | Except.ok processed => Except.ok [HookMsg.addBodies type uuids processed]

theorem sphereArgsFn_nonarray (v : JSVal) (hnotarr : isJSArray v = false) :
    sphereArgsFn (some v) = Except.error "useSphere args must be an array" := by
  cases v with
  | arr xs => simp [isJSArray] at hnotarr
  | num x => rfl
  | str s => rfl
  | boolean b => rfl

theorem sphereArgsFn_error_msg (a : Option JSVal) (e : String)
    (h : sphereArgsFn a = Except.error e) : e = "useSphere args must be an array" := by
  unfold sphereArgsFn at h
  split at h
  · exact absurd h (by simp)
  · exact (Except.error.injEq _ _ ▸ congrArg id h).symm ▸ rfl

theorem mapExcept_sphere_error (bodyArgs : List (Option JSVal)) (v : JSVal)
    (hmem : some v ∈ bodyArgs) (hnotarr : isJSArray v = false) :
    mapExcept sphereArgsFn bodyArgs = Except.error "useSphere args must be an array" := by
  induction bodyArgs with
  | nil => cases hmem
  | cons hd tl ih =>
    simp only [mapExcept]
    cases hf : sphereArgsFn hd with
    | error e =>
      rw [sphereArgsFn_error_msg hd e hf]
    | ok b =>
      have hne : hd ≠ some v := by
        intro hcontra
        rw [hcontra, sphereArgsFn_nonarray v hnotarr] at hf
        cases hf
      have hmem' : some v ∈ tl := by
        rcases List.mem_cons.mp hmem with h | h
        · exact absurd h.symm hne
        · exact h
      rw [ih hmem']

/-- Claim C9: calling a strongly-typed constructor with a malformed args value
(`useSphere` with a non-array) fails fast on the Transport side: the per-body
props construction aborts with the thrown error, so no `addBodies` message is
produced. -/
theorem claim_C9_malformed_args_fail_fast (bodyArgs : List (Option JSVal))
    (v : JSVal) (type : String) (uuids : List String)
    (hmem : some v ∈ bodyArgs) (hnotarr : isJSArray v = false) :
    useBodyMessages sphereArgsFn bodyArgs type uuids
      = Except.error "useSphere args must be an array" := by
  rw [useBodyMessages, mapExcept_sphere_error bodyArgs v hmem hnotarr]

theorem claim_C9_malformed_args_fail_fast_witness :
    some (JSVal.num 5) ∈ [some (JSVal.num 5)] ∧
      isJSArray (JSVal.num 5) = false ∧
      useBodyMessages sphereArgsFn [some (JSVal.num 5)] "Sphere" ["u1"]
        = Except.error "useSphere args must be an array" :=
  ⟨List.mem_singleton.mpr rfl, rfl,
    claim_C9_malformed_args_fail_fast [some (JSVal.num 5)] (JSVal.num 5) "Sphere" ["u1"]
      (List.mem_singleton.mpr rfl) rfl⟩
